import Mathlib

/-!
Shallow embedding of `dolfyn/adp/rotate.py`: beam-geometry rotation matrix,
beam↔instrument and instrument↔earth frame transitions, and the corrected
heading unit vector.  Velocities and angles are modelled over `ℝ`; the
mutable ADP object is modelled as an explicit record, and a Python function
that may raise is modelled as returning the state at the moment of the raise
together with an optional error value.
-/

namespace Dolfyn

noncomputable section

/-- `deg2rad = np.pi / 180.` -/
def deg2rad : ℝ := Real.pi / 180

/-- Static configuration (`adcpo.config`): optional precomputed rotation
matrices, beam geometry, mounting orientation and ship pitch-roll flag. -/
structure AdcpConfig where
  rotmat : Option (Matrix (Fin 4) (Fin 4) ℝ)
  TransMatrix : Option (Matrix (Fin 4) (Fin 4) ℝ)
  beam_angle : ℝ
  beam_pattern : String
  orientation : String
  use_pitchroll : String

/-- Mutable properties map (`adcpo.props`).  A key that may be absent is an
`Option`; `declination_in_heading` defaults to `false` when absent, so it is
a `Bool`. -/
structure AdcpProps where
  coord_sys : String
  declination : Option ℝ
  declination_in_heading : Bool
  inst2earth_fixed : Option Bool
  inst_model : String
  heading_offset : Option ℝ

/-- The ADP data object: velocity (4 channels × depth bins × time), optional
bottom-track velocity (4 channels × time), orientation series, static config
and mutable properties. -/
structure Adcpo (nd nt : ℕ) where
  vel : Fin 4 → Fin nd → Fin nt → ℝ
  bt_vel : Option (Fin 4 → Fin nt → ℝ)
  heading : Fin nt → ℝ
  pitch : Fin nt → ℝ
  roll : Fin nt → ℝ
  orient_up : Fin nt → ℤ
  config : AdcpConfig
  props : AdcpProps

/-- The errors raised by the two frame transitions. -/
inductive RotErr where
  | needBeam
  | needInst
  | needInstShip
  | needEarth
  | unsupportedOrient
  deriving DecidableEq

/-- Python booleans compare equal to the integers 0 and 1, which matters for
the `convex == 0 or convex == -1` test in `calc_beam_rotmatrix`. -/
def pyBool (b : Bool) : ℤ := if b then 1 else 0

/-- Python's `str.lower()` on the ASCII strings used by the module. -/
def pyLower (s : String) : String := String.mk (s.data.map Char.toLower)

/-- `calc_beam_rotmatrix(theta, convex, degrees)`. -/
def calc_beam_rotmatrix (theta : ℝ) (convex : ℤ) (degrees : Bool) :
    Matrix (Fin 4) (Fin 4) ℝ :=
  let θ : ℝ := if degrees then theta * deg2rad else theta
  let c : ℝ := if convex = 0 ∨ convex = -1 then -1 else 1
  let a : ℝ := 1 / (2 * Real.sin θ)
  let b : ℝ := 1 / (4 * Real.cos θ)
  let d : ℝ := a / Real.sqrt 2
  !![c * a, -(c * a), 0, 0;
     0, 0, -(c * a), c * a;
     b, b, b, b;
     d, d, -d, -d]

/-- Matrix-source priority of `beam2inst`: `config.rotmat` if present, else
`config['TransMatrix']`, else the geometry-derived matrix. -/
def beam2inst_rotmat (config : AdcpConfig) : Matrix (Fin 4) (Fin 4) ℝ :=
  match config.rotmat with
  | some m => m
  | none =>
    match config.TransMatrix with
    | some m => m
    | none =>
      calc_beam_rotmatrix config.beam_angle
        (pyBool (config.beam_pattern = "convex")) true

/-- The rotation step of `beam2inst`: multiply the 4-channel velocity by the
resolved matrix (its algebraic inverse on a reverse call) and update
`coord_sys`. -/
def beamApply {nd nt : ℕ} (a : Adcpo nd nt) (reverse : Bool) : Adcpo nd nt :=
  let R0 := beam2inst_rotmat a.config
  let R := if reverse then R0⁻¹ else R0
  { a with
      vel := fun i k t => R.mulVec (fun j => a.vel j k t) i,
      props := { a.props with
        coord_sys := if reverse then "beam" else "inst" } }

/-- `beam2inst(adcpo, reverse, force)`: the returned pair is the state of the
object when the call ends (Python mutations persist past a raise) together
with the raised error, if any. -/
def beam2inst {nd nt : ℕ} (a : Adcpo nd nt) (reverse force : Bool) :
    Adcpo nd nt × Option RotErr :=
  if force = false ∧ reverse = false ∧ pyLower a.props.coord_sys ≠ "beam" then
    (a, some RotErr.needBeam)
  else if force = false ∧ reverse = true ∧ a.props.coord_sys ≠ "inst" then
    (a, some RotErr.needInst)
  else
    (beamApply a reverse, none)

/-- The 3×3 orientation matrix as a function of the six sines/cosines, with
the entry layout used by `inst2earth`. -/
def orientMatGen (ch sh cr sr cp sp : ℝ) : Matrix (Fin 3) (Fin 3) ℝ :=
  !![ch * cr + sh * sp * sr, sh * cp, ch * sr - sh * sp * cr;
     -(sh * cr) + ch * sp * sr, ch * cp, -(sh * sr) - ch * sp * cr;
     -(cp * sr), sp, cp * cr]

/-- The per-time-step rotation matrix built inside `inst2earth`, including
the tilt-corrected pitch and the model-specific roll/pitch corrections. -/
def inst2earth_rotmat {nd nt : ℕ} (a : Adcpo nd nt) (t : Fin nt) :
    Matrix (Fin 3) (Fin 3) ℝ :=
  let r0 : ℝ := a.roll t * deg2rad
  let p0 : ℝ := Real.arctan (Real.tan (a.pitch t * deg2rad) * Real.cos r0)
  let h : ℝ := a.heading t * deg2rad
  let sig : Prop := pyLower a.props.inst_model = "signature"
  let r1 : ℝ := if ¬sig ∧ a.config.orientation = "up" then r0 + Real.pi else r0
  let zero : Prop :=
    ¬sig ∧ a.props.coord_sys = "ship" ∧ a.config.use_pitchroll = "yes"
  let r : ℝ := if zero then 0 else r1
  let p : ℝ := if zero then 0 else p0
  orientMatGen (Real.cos h) (Real.sin h) (Real.cos r) (Real.sin r)
    (Real.cos p) (Real.sin p)

/-- Forward-only declination fold-in: `adcpo.heading += declination` plus the
`declination_in_heading` flag, applied before anything else can raise. -/
def declStep {nd nt : ℕ} (a : Adcpo nd nt) (reverse : Bool) : Adcpo nd nt :=
  if reverse = false ∧ a.props.declination.isSome = true ∧
      a.props.declination_in_heading = false then
    { a with
        heading := fun t => a.heading t + a.props.declination.getD 0,
        props := { a.props with declination_in_heading := true } }
  else a

/-- The fixed-orientation value the call actually uses: on a reverse call the
value popped from `props` (defaulting to the argument), else the argument. -/
def i2e_fixedEff {nd nt : ℕ} (a : Adcpo nd nt) (reverse fo : Bool) : Bool :=
  if reverse then a.props.inst2earth_fixed.getD fo else fo

/-- The matrix applied at each time step: time-averaged in fixed mode, and
transposed on a reverse call. -/
def i2e_matrix {nd nt : ℕ} (a : Adcpo nd nt) (reverse fixed : Bool)
    (t : Fin nt) : Matrix (Fin 3) (Fin 3) ℝ :=
  let M : Matrix (Fin 3) (Fin 3) ℝ :=
    if fixed then Matrix.of fun i j => (∑ s, inst2earth_rotmat a s i j) / nt
    else inst2earth_rotmat a t
  if reverse then M.transpose else M

/-- Rotate the first three channels of a 4-channel vector by a 3×3 matrix,
leaving the fourth (error-velocity) channel untouched. -/
def rot3 (A : Matrix (Fin 3) (Fin 3) ℝ) (v : Fin 4 → ℝ) : Fin 4 → ℝ :=
  fun i =>
    if h : (i : ℕ) < 3 then
      A.mulVec (fun j => v (Fin.castLE (by norm_num) j)) ⟨i, h⟩
    else v i

/-- The rotation step of `inst2earth`: per-time-step multiplication of the
first three channels of `vel` (and of `bt_vel` when present), plus the
`coord_sys` and `inst2earth:fixed` bookkeeping. -/
def i2e_apply {nd nt : ℕ} (a : Adcpo nd nt) (reverse fo : Bool) :
    Adcpo nd nt :=
  { a with
      vel := fun i k t =>
        rot3 (i2e_matrix a reverse (i2e_fixedEff a reverse fo) t)
          (fun c => a.vel c k t) i,
      bt_vel := a.bt_vel.map fun bt => fun i t =>
        rot3 (i2e_matrix a reverse (i2e_fixedEff a reverse fo) t)
          (fun c => bt c t) i,
      props := { a.props with
        coord_sys := if reverse then "inst" else "earth",
        inst2earth_fixed := if reverse then none else some fo } }

/-- The matrix actually multiplied against the velocity channels by
`inst2earth` at time step `t`: built from the post-declination record with
the effective fixed flag, transposed on a reverse call. -/
def i2e_applied {nd nt : ℕ} (a : Adcpo nd nt) (reverse fo : Bool)
    (t : Fin nt) : Matrix (Fin 3) (Fin 3) ℝ :=
  i2e_matrix (declStep a reverse) reverse
    (i2e_fixedEff (declStep a reverse) reverse fo) t

/-- `inst2earth(adcpo, reverse, fixed_orientation, force)`. -/
def inst2earth {nd nt : ℕ} (a : Adcpo nd nt) (reverse fo force : Bool) :
    Adcpo nd nt × Option RotErr :=
  if force = false ∧ reverse = false ∧
      a.props.coord_sys ∉ (["inst", "ship"] : List String) then
    (a, some RotErr.needInstShip)
  else if force = false ∧ reverse = true ∧
      pyLower a.props.coord_sys ∉ (["earth", "enu"] : List String) then
    (a, some RotErr.needEarth)
  else if pyLower (declStep a reverse).props.inst_model = "signature" ∧
      (∃ t, (declStep a reverse).orient_up t ≠ (4 : ℤ)) then
    (declStep a reverse, some RotErr.unsupportedOrient)
  else
    (i2e_apply (declStep a reverse) reverse fo, none)

/-- `inst2earth_heading(adpo)`: `exp(-i·h)` with the heading offset and the
declination (unconditionally, whenever present) added to the heading. -/
def inst2earth_heading {nd nt : ℕ} (a : Adcpo nd nt) : Fin nt → ℂ :=
  fun t =>
    let h0 : ℝ := a.heading t * deg2rad
    let h1 : ℝ :=
      match a.props.heading_offset with
      | some o => h0 + o * deg2rad
      | none => h0
    let h2 : ℝ :=
      match a.props.declination with
      | some d => h1 + d * deg2rad
      | none => h1
    Complex.exp (-Complex.I * h2)

/-! Concrete records used as test inputs. -/

/-- Instrument-frame unit velocity along the instrument x-axis. -/
def velX : Fin 4 → Fin 1 → Fin 1 → ℝ := fun i _ _ => if i = 0 then 1 else 0

/-- A plain configuration: no precomputed matrices, 20° convex head,
downward-looking, no ship pitch-roll usage. -/
def cfg0 : AdcpConfig :=
  { rotmat := none, TransMatrix := none, beam_angle := 20,
    beam_pattern := "convex", orientation := "down", use_pitchroll := "no" }

/-- Plain properties: instrument frame, no declination, RDI-style model. -/
def props0 : AdcpProps :=
  { coord_sys := "inst", declination := none, declination_in_heading := false,
    inst2earth_fixed := none, inst_model := "rdi", heading_offset := none }

/-- Base record: one depth bin, one time step, level orientation. -/
def rec0 : Adcpo 1 1 :=
  { vel := velX, bt_vel := none, heading := fun _ => 0, pitch := fun _ => 0,
    roll := fun _ => 0, orient_up := fun _ => 4, config := cfg0,
    props := props0 }

/-- Heading 90°, pitch 0, roll 0, instrument frame. -/
def rec90 : Adcpo 1 1 := { rec0 with heading := fun _ => 90 }

/-- A record in beam coordinates whose config carries a precomputed
(identity) rotation matrix. -/
def recBeam : Adcpo 1 1 :=
  { rec0 with
      props := { props0 with coord_sys := "beam" },
      config := { cfg0 with rotmat := some 1 } }

/-- Ship-frame record with pitch-roll suppression enabled and a 90° roll. -/
def recShip : Adcpo 1 1 :=
  { rec0 with
      roll := fun _ => 90,
      props := { props0 with coord_sys := "ship" },
      config := { cfg0 with use_pitchroll := "yes" } }

/-- Signature-model record with an unsupported orientation flag and a
pending declination. -/
def recSig : Adcpo 1 1 :=
  { rec0 with
      orient_up := fun _ => 5,
      props := { props0 with
                   inst_model := "signature"
                   declination := some 10 } }

/-- Record with a pending declination of 10°. -/
def recDecl : Adcpo 1 1 :=
  { rec0 with props := { props0 with declination := some 10 } }

/-- Earth-frame record carrying a recorded fixed-orientation flag. -/
def recEarth : Adcpo 1 1 :=
  { rec0 with
      props := { props0 with
                   coord_sys := "earth"
                   inst2earth_fixed := some true } }

/-- Record with a bottom-track velocity array present. -/
def recBt : Adcpo 1 1 :=
  { rec0 with bt_vel := some (fun i _ => if i = 0 then 1 else 0) }

end

/-! Helper lemmas. -/

theorem i2e_apply_vel {nd nt : ℕ} (a : Adcpo nd nt) (reverse fo : Bool)
    (i : Fin 4) (k : Fin nd) (t : Fin nt) :
    (i2e_apply a reverse fo).vel i k t =
      rot3 (i2e_matrix a reverse (i2e_fixedEff a reverse fo) t)
        (fun c => a.vel c k t) i := rfl

theorem i2e_apply_bt_vel {nd nt : ℕ} (a : Adcpo nd nt) (reverse fo : Bool) :
    (i2e_apply a reverse fo).bt_vel = a.bt_vel.map fun bt => fun i t =>
      rot3 (i2e_matrix a reverse (i2e_fixedEff a reverse fo) t)
        (fun c => bt c t) i := rfl

theorem i2e_apply_heading {nd nt : ℕ} (a : Adcpo nd nt) (reverse fo : Bool) :
    (i2e_apply a reverse fo).heading = a.heading := rfl

theorem i2e_apply_pitch {nd nt : ℕ} (a : Adcpo nd nt) (reverse fo : Bool) :
    (i2e_apply a reverse fo).pitch = a.pitch := rfl

theorem i2e_apply_roll {nd nt : ℕ} (a : Adcpo nd nt) (reverse fo : Bool) :
    (i2e_apply a reverse fo).roll = a.roll := rfl

theorem i2e_apply_orient_up {nd nt : ℕ} (a : Adcpo nd nt)
    (reverse fo : Bool) :
    (i2e_apply a reverse fo).orient_up = a.orient_up := rfl

theorem i2e_apply_config {nd nt : ℕ} (a : Adcpo nd nt) (reverse fo : Bool) :
    (i2e_apply a reverse fo).config = a.config := rfl

theorem i2e_apply_coord_sys {nd nt : ℕ} (a : Adcpo nd nt)
    (reverse fo : Bool) :
    (i2e_apply a reverse fo).props.coord_sys =
      if reverse then "inst" else "earth" := rfl

theorem i2e_apply_fixed {nd nt : ℕ} (a : Adcpo nd nt) (reverse fo : Bool) :
    (i2e_apply a reverse fo).props.inst2earth_fixed =
      if reverse then none else some fo := rfl

theorem i2e_apply_declination {nd nt : ℕ} (a : Adcpo nd nt)
    (reverse fo : Bool) :
    (i2e_apply a reverse fo).props.declination = a.props.declination := rfl

theorem i2e_apply_decl_flag {nd nt : ℕ} (a : Adcpo nd nt) (reverse fo : Bool) :
    (i2e_apply a reverse fo).props.declination_in_heading =
      a.props.declination_in_heading := rfl

theorem i2e_apply_inst_model {nd nt : ℕ} (a : Adcpo nd nt)
    (reverse fo : Bool) :
    (i2e_apply a reverse fo).props.inst_model = a.props.inst_model := rfl

theorem i2e_apply_heading_offset {nd nt : ℕ} (a : Adcpo nd nt)
    (reverse fo : Bool) :
    (i2e_apply a reverse fo).props.heading_offset =
      a.props.heading_offset := rfl

theorem beamApply_vel {nd nt : ℕ} (a : Adcpo nd nt) (reverse : Bool)
    (i : Fin 4) (k : Fin nd) (t : Fin nt) :
    (beamApply a reverse).vel i k t =
      (if reverse then (beam2inst_rotmat a.config)⁻¹
        else beam2inst_rotmat a.config).mulVec (fun j => a.vel j k t) i := rfl

theorem beamApply_coord_sys {nd nt : ℕ} (a : Adcpo nd nt) (reverse : Bool) :
    (beamApply a reverse).props.coord_sys =
      if reverse then "beam" else "inst" := rfl

theorem beamApply_config {nd nt : ℕ} (a : Adcpo nd nt) (reverse : Bool) :
    (beamApply a reverse).config = a.config := rfl

theorem orientMatGen_mul_transpose (ch sh cr sr cp sp : ℝ)
    (hh : ch ^ 2 + sh ^ 2 = 1) (hr : cr ^ 2 + sr ^ 2 = 1)
    (hp : cp ^ 2 + sp ^ 2 = 1) :
    orientMatGen ch sh cr sr cp sp * (orientMatGen ch sh cr sr cp sp).transpose
      = 1 := by
  ext i j
  simp only [Matrix.mul_apply, Matrix.transpose_apply, Fin.sum_univ_three]
  fin_cases i <;> fin_cases j <;>
    simp [orientMatGen, Matrix.one_apply]
  · linear_combination (ch ^ 2 + sh ^ 2 * sp ^ 2) * hr + sh ^ 2 * hp + hh
  · linear_combination (ch * sh * sp ^ 2 - ch * sh) * hr + ch * sh * hp
  · linear_combination (-(sh * cp * sp)) * hr
  · linear_combination (ch * sh * sp ^ 2 - ch * sh) * hr + ch * sh * hp
  · linear_combination (sh ^ 2 + ch ^ 2 * sp ^ 2) * hr + ch ^ 2 * hp + hh
  · linear_combination (-(ch * cp * sp)) * hr
  · linear_combination (-(sh * cp * sp)) * hr
  · linear_combination (-(ch * cp * sp)) * hr
  · linear_combination cp ^ 2 * hr + hp

theorem rot3_rot3_inv (A B : Matrix (Fin 3) (Fin 3) ℝ) (hBA : B * A = 1)
    (v : Fin 4 → ℝ) : rot3 B (rot3 A v) = v := by
  funext i
  by_cases h : (i : ℕ) < 3
  · show dite _ _ _ = _
    rw [dif_pos h]
    have hinner : (fun j : Fin 3 => rot3 A v (Fin.castLE (by norm_num) j))
        = A.mulVec (fun j : Fin 3 => v (Fin.castLE (by norm_num) j)) := by
      funext j
      show dite _ _ _ = _
      rw [dif_pos (show ((Fin.castLE (by norm_num) j : Fin 4) : ℕ) < 3 from
        j.isLt)]
      rfl
    rw [hinner, Matrix.mulVec_mulVec, hBA, Matrix.one_mulVec]
    rfl
  · show dite _ _ _ = _
    rw [dif_neg h]
    show dite _ _ _ = _
    rw [dif_neg h]

theorem rot3_last (A : Matrix (Fin 3) (Fin 3) ℝ) (v : Fin 4 → ℝ)
    (i : Fin 4) (hi : ¬((i : ℕ) < 3)) : rot3 A v i = v i := by
  show dite _ _ _ = _
  rw [dif_neg hi]

theorem inst2earth_rotmat_orth {nd nt : ℕ} (a : Adcpo nd nt) (t : Fin nt) :
    inst2earth_rotmat a t * (inst2earth_rotmat a t).transpose = 1 := by
  unfold inst2earth_rotmat
  exact orientMatGen_mul_transpose _ _ _ _ _ _ (Real.cos_sq_add_sin_sq _)
    (Real.cos_sq_add_sin_sq _) (Real.cos_sq_add_sin_sq _)

theorem declStep_true {nd nt : ℕ} (a : Adcpo nd nt) : declStep a true = a := by
  unfold declStep
  simp

theorem declStep_vel {nd nt : ℕ} (a : Adcpo nd nt) (reverse : Bool) :
    (declStep a reverse).vel = a.vel := by
  unfold declStep
  split <;> rfl

theorem declStep_bt_vel {nd nt : ℕ} (a : Adcpo nd nt) (reverse : Bool) :
    (declStep a reverse).bt_vel = a.bt_vel := by
  unfold declStep
  split <;> rfl

theorem declStep_pitch {nd nt : ℕ} (a : Adcpo nd nt) (reverse : Bool) :
    (declStep a reverse).pitch = a.pitch := by
  unfold declStep
  split <;> rfl

theorem declStep_roll {nd nt : ℕ} (a : Adcpo nd nt) (reverse : Bool) :
    (declStep a reverse).roll = a.roll := by
  unfold declStep
  split <;> rfl

theorem declStep_orient_up {nd nt : ℕ} (a : Adcpo nd nt) (reverse : Bool) :
    (declStep a reverse).orient_up = a.orient_up := by
  unfold declStep
  split <;> rfl

theorem declStep_config {nd nt : ℕ} (a : Adcpo nd nt) (reverse : Bool) :
    (declStep a reverse).config = a.config := by
  unfold declStep
  split <;> rfl

theorem declStep_coord_sys {nd nt : ℕ} (a : Adcpo nd nt) (reverse : Bool) :
    (declStep a reverse).props.coord_sys = a.props.coord_sys := by
  unfold declStep
  split <;> rfl

theorem declStep_inst_model {nd nt : ℕ} (a : Adcpo nd nt) (reverse : Bool) :
    (declStep a reverse).props.inst_model = a.props.inst_model := by
  unfold declStep
  split <;> rfl

theorem declStep_fixed {nd nt : ℕ} (a : Adcpo nd nt) (reverse : Bool) :
    (declStep a reverse).props.inst2earth_fixed =
      a.props.inst2earth_fixed := by
  unfold declStep
  split <;> rfl

theorem declStep_declination {nd nt : ℕ} (a : Adcpo nd nt) (reverse : Bool) :
    (declStep a reverse).props.declination = a.props.declination := by
  unfold declStep
  split <;> rfl

theorem declStep_heading_offset {nd nt : ℕ} (a : Adcpo nd nt)
    (reverse : Bool) :
    (declStep a reverse).props.heading_offset = a.props.heading_offset := by
  unfold declStep
  split <;> rfl

theorem inst2earth_ok {nd nt : ℕ} (a : Adcpo nd nt) (reverse fo force : Bool)
    (h1 : ¬(force = false ∧ reverse = false ∧
      a.props.coord_sys ∉ (["inst", "ship"] : List String)))
    (h2 : ¬(force = false ∧ reverse = true ∧
      pyLower a.props.coord_sys ∉ (["earth", "enu"] : List String)))
    (h3 : ¬(pyLower (declStep a reverse).props.inst_model = "signature" ∧
      ∃ t, (declStep a reverse).orient_up t ≠ (4 : ℤ))) :
    inst2earth a reverse fo force =
      (i2e_apply (declStep a reverse) reverse fo, none) := by
  unfold inst2earth
  rw [if_neg h1, if_neg h2, if_neg h3]

theorem inst2earth_err_pre1 {nd nt : ℕ} (a : Adcpo nd nt) (fo : Bool)
    (h : a.props.coord_sys ∉ (["inst", "ship"] : List String)) :
    inst2earth a false fo false = (a, some RotErr.needInstShip) := by
  unfold inst2earth
  rw [if_pos ⟨rfl, rfl, h⟩]

theorem inst2earth_err_pre2 {nd nt : ℕ} (a : Adcpo nd nt) (fo : Bool)
    (h : pyLower a.props.coord_sys ∉ (["earth", "enu"] : List String)) :
    inst2earth a true fo false = (a, some RotErr.needEarth) := by
  unfold inst2earth
  rw [if_neg (by simp), if_pos ⟨rfl, rfl, h⟩]

theorem inst2earth_err_sig {nd nt : ℕ} (a : Adcpo nd nt)
    (reverse fo force : Bool)
    (h1 : ¬(force = false ∧ reverse = false ∧
      a.props.coord_sys ∉ (["inst", "ship"] : List String)))
    (h2 : ¬(force = false ∧ reverse = true ∧
      pyLower a.props.coord_sys ∉ (["earth", "enu"] : List String)))
    (h3 : pyLower (declStep a reverse).props.inst_model = "signature" ∧
      ∃ t, (declStep a reverse).orient_up t ≠ (4 : ℤ)) :
    inst2earth a reverse fo force =
      (declStep a reverse, some RotErr.unsupportedOrient) := by
  unfold inst2earth
  rw [if_neg h1, if_neg h2, if_pos h3]

theorem beam2inst_ok {nd nt : ℕ} (a : Adcpo nd nt) (reverse force : Bool)
    (h1 : ¬(force = false ∧ reverse = false ∧
      pyLower a.props.coord_sys ≠ "beam"))
    (h2 : ¬(force = false ∧ reverse = true ∧ a.props.coord_sys ≠ "inst")) :
    beam2inst a reverse force = (beamApply a reverse, none) := by
  unfold beam2inst
  rw [if_neg h1, if_neg h2]

theorem inst2earth_rotmat_congr {nd nt : ℕ} (a b : Adcpo nd nt)
    (hh : a.heading = b.heading) (hp : a.pitch = b.pitch)
    (hr : a.roll = b.roll) (hm : a.props.inst_model = b.props.inst_model)
    (ho : a.config.orientation = b.config.orientation)
    (hz : (a.props.coord_sys = "ship" ∧ a.config.use_pitchroll = "yes") ↔
      (b.props.coord_sys = "ship" ∧ b.config.use_pitchroll = "yes")) :
    inst2earth_rotmat a = inst2earth_rotmat b := by
  funext t
  unfold inst2earth_rotmat
  rw [hh, hp, hr, hm, ho]
  simp only [hz]

theorem rotmat_general {nd nt : ℕ} (a : Adcpo nd nt) (t : Fin nt)
    (ho : a.config.orientation ≠ "up")
    (hz : ¬(a.props.coord_sys = "ship" ∧ a.config.use_pitchroll = "yes")) :
    inst2earth_rotmat a t =
      orientMatGen (Real.cos (a.heading t * deg2rad))
        (Real.sin (a.heading t * deg2rad))
        (Real.cos (a.roll t * deg2rad)) (Real.sin (a.roll t * deg2rad))
        (Real.cos (Real.arctan (Real.tan (a.pitch t * deg2rad) *
          Real.cos (a.roll t * deg2rad))))
        (Real.sin (Real.arctan (Real.tan (a.pitch t * deg2rad) *
          Real.cos (a.roll t * deg2rad)))) := by
  have hz1 : ¬(¬(pyLower a.props.inst_model = "signature") ∧
      a.props.coord_sys = "ship" ∧ a.config.use_pitchroll = "yes") :=
    fun hc => hz hc.2
  have ho1 : ¬(¬(pyLower a.props.inst_model = "signature") ∧
      a.config.orientation = "up") := fun hc => ho hc.2
  simp only [inst2earth_rotmat, if_neg hz1, if_neg ho1]

theorem orientMatGen_id :
    orientMatGen 0 1 1 0 1 0 = !![0, 1, 0; -1, 0, 0; 0, 0, 1] := by
  ext i j
  fin_cases i <;> fin_cases j <;> simp [orientMatGen]

theorem rotmat_rec90 :
    inst2earth_rotmat rec90 0 = !![0, 1, 0; -1, 0, 0; 0, 0, 1] := by
  have hgen := rotmat_general rec90 0 (by decide) (by decide)
  have h90 : (90 : ℝ) * deg2rad = Real.pi / 2 := by unfold deg2rad; ring
  have hhd : rec90.heading 0 = 90 := rfl
  have hrl : rec90.roll 0 = 0 := rfl
  have hpt : rec90.pitch 0 = 0 := rfl
  rw [hgen, hhd, hrl, hpt, h90]
  simp [Real.cos_pi_div_two, Real.sin_pi_div_two, Real.tan_zero,
    Real.arctan_zero, orientMatGen_id]

set_option maxHeartbeats 1000000 in
theorem beam_right_inverse (c s co q : ℝ) (hc : c = -1 ∨ c = 1) (hs : s ≠ 0)
    (hco : co ≠ 0) (hq : q ≠ 0) :
    (!![c * (1 / (2 * s)), -(c * (1 / (2 * s))), 0, 0;
        0, 0, -(c * (1 / (2 * s))), c * (1 / (2 * s));
        1 / (4 * co), 1 / (4 * co), 1 / (4 * co), 1 / (4 * co);
        (1 / (2 * s)) / q, (1 / (2 * s)) / q, -((1 / (2 * s)) / q),
          -((1 / (2 * s)) / q)] : Matrix (Fin 4) (Fin 4) ℝ) *
      !![c * s, 0, co, q * s / 2;
         -(c * s), 0, co, q * s / 2;
         0, -(c * s), co, -(q * s / 2);
         0, c * s, co, -(q * s / 2)] = 1 := by
  rcases hc with h | h <;> subst h <;> ext i j <;>
    simp only [Matrix.mul_apply, Fin.sum_univ_four] <;>
    fin_cases i <;> fin_cases j <;>
    (simp [Matrix.one_apply, Matrix.vecHead, Matrix.vecTail];
      try field_simp; try ring)

theorem calc_beam_rotmatrix_isUnit_det (theta : ℝ) (convex : ℤ)
    (degrees : Bool)
    (hs : Real.sin (if degrees then theta * deg2rad else theta) ≠ 0)
    (hc : Real.cos (if degrees then theta * deg2rad else theta) ≠ 0) :
    IsUnit (calc_beam_rotmatrix theta convex degrees).det := by
  have hcv : (if convex = 0 ∨ convex = -1 then (-1 : ℝ) else 1) = -1 ∨
      (if convex = 0 ∨ convex = -1 then (-1 : ℝ) else 1) = 1 := by
    split
    · exact Or.inl rfl
    · exact Or.inr rfl
  have hq : Real.sqrt 2 ≠ 0 := by
    simp [Real.sqrt_eq_zero']
  exact Matrix.isUnit_det_of_right_inverse
    (beam_right_inverse _ _ _ _ hcv hs hc hq)

/-! Claim theorems. -/

/-- C1: the rotation matrix built inside `inst2earth` has, at each time step,
the entries `M[0,0]=ch*cr+sh*sp*sr`, `M[0,1]=sh*cp`, `M[0,2]=ch*sr-sh*sp*cr`,
`M[1,0]=-sh*cr+ch*sp*sr`, `M[1,1]=ch*cp`, `M[1,2]=-sh*sr-ch*sp*cr`,
`M[2,0]=-cp*sr`, `M[2,1]=sp`, `M[2,2]=cp*cr` (these are exactly the entries
of `orientMatGen ch sh cr sr cp sp`), where `h` and `r` are heading and roll
in radians and the pitch is `atan(tan(pitch_raw)*cos(r))`; and for heading
90°, pitch 0, roll 0 (non-signature, not up, not ship) the matrix is
`[[0,1,0],[-1,0,0],[0,0,1]]` and the forward transform sends instrument
velocity `(1,0,0)` to earth velocity `(0,-1,0)`. -/
theorem claim_C1 :
    (∀ (nd nt : ℕ) (a : Adcpo nd nt) (t : Fin nt),
      a.config.orientation ≠ "up" →
      ¬(a.props.coord_sys = "ship" ∧ a.config.use_pitchroll = "yes") →
      inst2earth_rotmat a t =
        orientMatGen (Real.cos (a.heading t * deg2rad))
          (Real.sin (a.heading t * deg2rad))
          (Real.cos (a.roll t * deg2rad)) (Real.sin (a.roll t * deg2rad))
          (Real.cos (Real.arctan (Real.tan (a.pitch t * deg2rad) *
            Real.cos (a.roll t * deg2rad))))
          (Real.sin (Real.arctan (Real.tan (a.pitch t * deg2rad) *
            Real.cos (a.roll t * deg2rad))))) ∧
    inst2earth_rotmat rec90 0 = !![0, 1, 0; -1, 0, 0; 0, 0, 1] ∧
    (inst2earth rec90 false false false).2 = none ∧
    (inst2earth rec90 false false false).1.vel 0 0 0 = 0 ∧
    (inst2earth rec90 false false false).1.vel 1 0 0 = -1 ∧
    (inst2earth rec90 false false false).1.vel 2 0 0 = 0 := by
  have hds : declStep rec90 false = rec90 := by
    unfold declStep
    rw [if_neg (by decide)]
  have hok := inst2earth_ok rec90 false false false (by decide) (by decide)
    (by rw [hds]; decide)
  rw [hds] at hok
  have hmat : i2e_matrix rec90 false (i2e_fixedEff rec90 false false) 0 =
      !![0, 1, 0; -1, 0, 0; 0, 0, 1] := by
    show inst2earth_rotmat rec90 0 = _
    exact rotmat_rec90
  refine ⟨fun nd nt a t ho hz => rotmat_general a t ho hz, rotmat_rec90,
    ?_, ?_, ?_, ?_⟩
  · rw [hok]
  all_goals
  · rw [hok]
    show (i2e_apply rec90 false false).vel _ 0 0 = _
    rw [i2e_apply_vel, hmat]
    simp [rot3, Matrix.mulVec, Matrix.dotProduct, Fin.sum_univ_three, rec90,
      rec0, velX, Fin.castLE]

/-- C1 witness: the general matrix-entry formula instantiated at the record
`rec0`. -/
theorem claim_C1_witness :
    rec0.config.orientation ≠ "up" ∧
    ¬(rec0.props.coord_sys = "ship" ∧ rec0.config.use_pitchroll = "yes") ∧
    inst2earth_rotmat rec0 0 =
      orientMatGen (Real.cos (rec0.heading 0 * deg2rad))
        (Real.sin (rec0.heading 0 * deg2rad))
        (Real.cos (rec0.roll 0 * deg2rad)) (Real.sin (rec0.roll 0 * deg2rad))
        (Real.cos (Real.arctan (Real.tan (rec0.pitch 0 * deg2rad) *
          Real.cos (rec0.roll 0 * deg2rad))))
        (Real.sin (Real.arctan (Real.tan (rec0.pitch 0 * deg2rad) *
          Real.cos (rec0.roll 0 * deg2rad)))) :=
  ⟨by decide, by decide, claim_C1.1 1 1 rec0 0 (by decide) (by decide)⟩

/-- C2: from beam coordinates, a forward `beam2inst` followed by the reverse
call reconstructs the velocity array exactly (the reverse multiplies by the
algebraic inverse of the same matrix); moreover the geometry-derived matrix
is always invertible away from the degenerate angles. -/
theorem claim_C2 :
    (∀ (nd nt : ℕ) (a : Adcpo nd nt),
      pyLower a.props.coord_sys = "beam" →
      IsUnit (beam2inst_rotmat a.config).det →
      (beam2inst a false false).2 = none ∧
      (beam2inst (beam2inst a false false).1 true false).2 = none ∧
      (beam2inst (beam2inst a false false).1 true false).1.vel = a.vel ∧
      (beam2inst (beam2inst a false false).1 true false).1.props.coord_sys
        = "beam") ∧
    (∀ (theta : ℝ) (convex : ℤ) (degrees : Bool),
      Real.sin (if degrees then theta * deg2rad else theta) ≠ 0 →
      Real.cos (if degrees then theta * deg2rad else theta) ≠ 0 →
      IsUnit (calc_beam_rotmatrix theta convex degrees).det) := by
  refine ⟨?_, fun theta convex degrees hs hc =>
    calc_beam_rotmatrix_isUnit_det theta convex degrees hs hc⟩
  intro nd nt a hcs hdet
  have h1 := beam2inst_ok a false false (by simp [hcs]) (by simp)
  have hcs1 : (beamApply a false).props.coord_sys = "inst" := rfl
  have h2 := beam2inst_ok (beamApply a false) true false (by simp)
    (by simp [hcs1])
  rw [h1]
  refine ⟨rfl, ?_, ?_, ?_⟩
  · show (beam2inst (beamApply a false) true false).2 = none
    rw [h2]
  · show (beam2inst (beamApply a false) true false).1.vel = a.vel
    rw [h2]
    funext i k t
    show (beamApply (beamApply a false) true).vel i k t = a.vel i k t
    rw [beamApply_vel]
    have hconf : (beamApply a false).config = a.config := rfl
    rw [hconf]
    have hv : (fun j => (beamApply a false).vel j k t)
        = (beam2inst_rotmat a.config).mulVec (fun j => a.vel j k t) := by
      funext j
      rw [beamApply_vel]
      simp
    rw [if_pos rfl, hv, Matrix.mulVec_mulVec,
      Matrix.nonsing_inv_mul _ hdet, Matrix.one_mulVec]
  · show (beam2inst (beamApply a false) true false).1.props.coord_sys
      = "beam"
    rw [h2]
    rfl

/-- C2 witness: the round-trip at a concrete beam-frame record whose config
carries an (invertible) precomputed identity matrix. -/
theorem claim_C2_witness :
    pyLower recBeam.props.coord_sys = "beam" ∧
    IsUnit (beam2inst_rotmat recBeam.config).det ∧
    (beam2inst (beam2inst recBeam false false).1 true false).1.vel
      = recBeam.vel := by
  have h1 : pyLower recBeam.props.coord_sys = "beam" := by decide
  have h2 : IsUnit (beam2inst_rotmat recBeam.config).det := by
    have he : beam2inst_rotmat recBeam.config = 1 := rfl
    rw [he]
    simp
  exact ⟨h1, h2, ((claim_C2.1) 1 1 recBeam h1 h2).2.2.1⟩

/-- C5: a transition invoked on a record whose `coord_sys` does not match the
expected frame (without `force`) raises the precondition error and returns
the record entirely unchanged; in particular `beam2inst` forward on an
`inst`-frame record. -/
theorem claim_C5 :
    (∀ (nd nt : ℕ) (a : Adcpo nd nt),
      pyLower a.props.coord_sys ≠ "beam" →
        beam2inst a false false = (a, some RotErr.needBeam)) ∧
    (∀ (nd nt : ℕ) (a : Adcpo nd nt),
      a.props.coord_sys ≠ "inst" →
        beam2inst a true false = (a, some RotErr.needInst)) ∧
    (∀ (nd nt : ℕ) (a : Adcpo nd nt) (fo : Bool),
      a.props.coord_sys ∉ (["inst", "ship"] : List String) →
        inst2earth a false fo false = (a, some RotErr.needInstShip)) ∧
    (∀ (nd nt : ℕ) (a : Adcpo nd nt) (fo : Bool),
      pyLower a.props.coord_sys ∉ (["earth", "enu"] : List String) →
        inst2earth a true fo false = (a, some RotErr.needEarth)) := by
  refine ⟨?_, ?_, ?_, ?_⟩
  · intro nd nt a h
    unfold beam2inst
    rw [if_pos ⟨rfl, rfl, h⟩]
  · intro nd nt a h
    unfold beam2inst
    rw [if_neg (by simp), if_pos ⟨rfl, rfl, h⟩]
  · intro nd nt a fo h
    exact inst2earth_err_pre1 a fo h
  · intro nd nt a fo h
    exact inst2earth_err_pre2 a fo h

/-- C5 witness: `beam2inst` forward on the `inst`-frame record `rec0` raises
and returns the record unchanged. -/
theorem claim_C5_witness :
    pyLower rec0.props.coord_sys ≠ "beam" ∧
    beam2inst rec0 false false = (rec0, some RotErr.needBeam) :=
  ⟨by decide, claim_C5.1 1 1 rec0 (by decide)⟩

theorem rot3_one (v : Fin 4 → ℝ) : rot3 1 v = v := by
  funext i
  by_cases h : (i : ℕ) < 3
  · show dite _ _ _ = _
    rw [dif_pos h, Matrix.one_mulVec]
    rfl
  · show dite _ _ _ = _
    rw [dif_neg h]

/-- C3 (amended): the instrument→earth round trip with fixed orientation
disabled reconstructs the velocity exactly, for a record starting in the
`inst` frame or in the `ship` frame without pitch-roll suppression; the
ship-with-pitch-roll case of the original claim is refuted by
`claim_C3_cex`. -/
theorem claim_C3_thm (nd nt : ℕ) (a : Adcpo nd nt)
    (hcs : a.props.coord_sys = "inst" ∨
      (a.props.coord_sys = "ship" ∧ a.config.use_pitchroll ≠ "yes"))
    (hsig : ¬(pyLower a.props.inst_model = "signature" ∧
      ∃ t, a.orient_up t ≠ (4 : ℤ))) :
    (inst2earth a false false false).2 = none ∧
    (inst2earth (inst2earth a false false false).1 true false false).2
      = none ∧
    (inst2earth (inst2earth a false false false).1 true false false).1.vel
      = a.vel := by
  have hmem : a.props.coord_sys ∈ (["inst", "ship"] : List String) := by
    rcases hcs with h | h
    · rw [h]; simp
    · rw [h.1]; simp
  have hsig1 : ¬(pyLower (declStep a false).props.inst_model = "signature" ∧
      ∃ t, (declStep a false).orient_up t ≠ (4 : ℤ)) := by
    rw [declStep_inst_model, declStep_orient_up]
    exact hsig
  have hok1 := inst2earth_ok a false false false
    (fun hc => hc.2.2 hmem) (by simp) hsig1
  rw [hok1]
  set a1 := declStep a false with ha1
  set r1 := i2e_apply a1 false false with hr1
  have hcs1 : r1.props.coord_sys = "earth" := by
    rw [hr1, i2e_apply_coord_sys]
    rfl
  have hsig2 : ¬(pyLower (declStep r1 true).props.inst_model = "signature" ∧
      ∃ t, (declStep r1 true).orient_up t ≠ (4 : ℤ)) := by
    rw [declStep_true]
    rw [hr1]
    rw [i2e_apply_inst_model, i2e_apply_orient_up]
    rw [ha1]
    rw [declStep_inst_model, declStep_orient_up]
    exact hsig
  have hok2 := inst2earth_ok r1 true false false (by simp)
    (by
      intro hc
      apply hc.2.2
      rw [hcs1]
      decide) hsig2
  rw [declStep_true] at hok2
  refine ⟨rfl, ?_, ?_⟩
  · show (inst2earth r1 true false false).2 = none
    rw [hok2]
  · show (inst2earth r1 true false false).1.vel = a.vel
    rw [hok2]
    funext i k t
    rw [i2e_apply_vel]
    have heff : i2e_fixedEff r1 true false = false := by
      rw [i2e_fixedEff, hr1, i2e_apply_fixed]
      rfl
    have hAmat : i2e_matrix r1 true (i2e_fixedEff r1 true false) t
        = (inst2earth_rotmat r1 t).transpose := by
      rw [heff]
      rfl
    have hM : inst2earth_rotmat r1 = inst2earth_rotmat a1 := by
      apply inst2earth_rotmat_congr
      · rw [hr1, i2e_apply_heading]
      · rw [hr1, i2e_apply_pitch]
      · rw [hr1, i2e_apply_roll]
      · rw [hr1, i2e_apply_inst_model]
      · rw [hr1, i2e_apply_config]
      · constructor
        · intro hc
          rw [hcs1] at hc
          exact absurd hc.1 (by decide)
        · intro hc
          exfalso
          rw [ha1, declStep_coord_sys, declStep_config] at hc
          rcases hcs with h | h
          · rw [h] at hc
            exact absurd hc.1 (by decide)
          · exact h.2 hc.2
    have hw : (fun c => r1.vel c k t)
        = rot3 (inst2earth_rotmat a1 t) (fun c => a1.vel c k t) := by
      funext c
      rw [hr1, i2e_apply_vel]
      rfl
    rw [hAmat, hM, hw, rot3_rot3_inv _ _
      (Matrix.mul_eq_one_comm.mp (inst2earth_rotmat_orth a1 t)) _]
    rw [ha1, declStep_vel]

theorem orientMatGen_one : orientMatGen 1 0 1 0 1 0 = 1 := by
  ext i j
  fin_cases i <;> fin_cases j <;>
    simp [orientMatGen, Matrix.one_apply, Matrix.vecHead, Matrix.vecTail]

theorem rotmat_recShip_fwd :
    inst2earth_rotmat recShip 0 = 1 := by
  have hzero : ¬(pyLower recShip.props.inst_model = "signature") ∧
      recShip.props.coord_sys = "ship" ∧
      recShip.config.use_pitchroll = "yes" := by decide
  simp only [inst2earth_rotmat, if_pos hzero]
  norm_num [show recShip.heading 0 = (0 : ℝ) from rfl, Real.cos_zero,
    Real.sin_zero, orientMatGen_one]

/-- C3 counterexample: starting from the ship frame with pitch-roll
suppression enabled (`use_pitchroll = "yes"`) and a 90° roll, the forward
call zeroes roll/pitch but the reverse call (now in the earth frame) does
not, so the round trip does not restore the velocity. -/
theorem claim_C3_cex :
    (inst2earth recShip false false false).2 = none ∧
    (inst2earth (inst2earth recShip false false false).1 true false false).2
      = none ∧
    (inst2earth (inst2earth recShip false false false).1 true false
      false).1.vel 0 0 0 ≠ recShip.vel 0 0 0 := by
  have hds : declStep recShip false = recShip := by
    unfold declStep
    rw [if_neg (by decide)]
  have hok1 := inst2earth_ok recShip false false false (by decide) (by simp)
    (by rw [hds]; decide)
  rw [hds] at hok1
  rw [hok1]
  have hds2 : declStep (i2e_apply recShip false false) true
      = i2e_apply recShip false false := declStep_true _
  have hok2 := inst2earth_ok (i2e_apply recShip false false) true false false
    (by simp) (by intro hc; exact hc.2.2 (by decide)) (by rw [hds2]; decide)
  rw [hds2] at hok2
  refine ⟨rfl, ?_, ?_⟩
  · show (inst2earth (i2e_apply recShip false false) true false false).2
      = none
    rw [hok2]
  · show (inst2earth (i2e_apply recShip false false) true false
      false).1.vel 0 0 0 ≠ recShip.vel 0 0 0
    rw [hok2]
    rw [i2e_apply_vel]
    have heff : i2e_fixedEff (i2e_apply recShip false false) true false
        = false := by decide
    rw [heff]
    have hAmat : i2e_matrix (i2e_apply recShip false false) true false 0
        = (inst2earth_rotmat (i2e_apply recShip false false) 0).transpose :=
      rfl
    rw [hAmat]
    have hrot : inst2earth_rotmat (i2e_apply recShip false false) 0
        = !![0, 0, 1; 0, 1, 0; -1, 0, 0] := by
      have hgen := rotmat_general (i2e_apply recShip false false) 0
        (by decide) (by decide)
      rw [hgen]
      have h90 : (90 : ℝ) * deg2rad = Real.pi / 2 := by unfold deg2rad; ring
      have hh : (i2e_apply recShip false false).heading 0 = 0 := rfl
      have hr : (i2e_apply recShip false false).roll 0 = 90 := rfl
      have hp : (i2e_apply recShip false false).pitch 0 = 0 := rfl
      rw [hh, hr, hp, h90]
      norm_num [Real.cos_pi_div_two, Real.sin_pi_div_two, Real.tan_zero,
        Real.arctan_zero, Real.cos_zero, Real.sin_zero]
      ext i j
      fin_cases i <;> fin_cases j <;> simp [orientMatGen]
    rw [hrot]
    have hw : (fun c => (i2e_apply recShip false false).vel c 0 0)
        = fun c => recShip.vel c 0 0 := by
      funext c
      rw [i2e_apply_vel]
      have hmat1 : i2e_matrix recShip false
          (i2e_fixedEff recShip false false) 0 = 1 := by
        show inst2earth_rotmat recShip 0 = 1
        exact rotmat_recShip_fwd
      rw [hmat1, rot3_one]
    rw [hw]
    simp [rot3, Matrix.mulVec, Matrix.dotProduct, Matrix.transpose,
      Fin.sum_univ_three, recShip, rec0, velX, Fin.castLE]

/-- C3 witness: the amended round trip instantiated at the record `rec0`. -/
theorem claim_C3_witness :
    (rec0.props.coord_sys = "inst" ∨
      (rec0.props.coord_sys = "ship" ∧ rec0.config.use_pitchroll ≠ "yes")) ∧
    ¬(pyLower rec0.props.inst_model = "signature" ∧
      ∃ t, rec0.orient_up t ≠ (4 : ℤ)) ∧
    (inst2earth (inst2earth rec0 false false false).1 true false
      false).1.vel = rec0.vel := by
  have h1 : rec0.props.coord_sys = "inst" ∨
      (rec0.props.coord_sys = "ship" ∧ rec0.config.use_pitchroll ≠ "yes") :=
    by decide
  have h2 : ¬(pyLower rec0.props.inst_model = "signature" ∧
      ∃ t, rec0.orient_up t ≠ (4 : ℤ)) := by decide
  exact ⟨h1, h2, (claim_C3_thm 1 1 rec0 h1 h2).2.2⟩

theorem sin20_bounds :
    0.341202 < Real.sin (20 * deg2rad) ∧
      Real.sin (20 * deg2rad) < 0.342752 := by
  have hpi1 := Real.pi_gt_d6
  have hpi2 := Real.pi_lt_d6
  have hx1 : 0.349065 < 20 * deg2rad := by unfold deg2rad; nlinarith
  have hx2 : 20 * deg2rad < 0.349066 := by unfold deg2rad; nlinarith
  set x := 20 * deg2rad with hx
  have hxpos : 0 < x := by linarith
  have hxabs : |x| ≤ 1 := by
    rw [abs_of_pos hxpos]
    linarith
  have hsb := Real.sin_bound hxabs
  rw [abs_of_pos hxpos] at hsb
  have hpair := abs_le.mp hsb
  have hx3u : x ^ 3 < 0.0425331 := by
    nlinarith [sq_nonneg x, sq_nonneg (x + 0.349066)]
  have hx3l : 0.0425318 < x ^ 3 := by
    nlinarith [sq_nonneg x, sq_nonneg (x - 0.349065)]
  have hx4u : x ^ 4 < 0.0148476 := by
    nlinarith [sq_nonneg x, sq_nonneg (x ^ 2 - 0.1218471)]
  constructor
  · nlinarith [hpair.1]
  · nlinarith [hpair.2]

theorem cos20_bounds :
    0.938302 < Real.cos (20 * deg2rad) ∧
      Real.cos (20 * deg2rad) < 0.939851 := by
  have hpi1 := Real.pi_gt_d6
  have hpi2 := Real.pi_lt_d6
  have hx1 : 0.349065 < 20 * deg2rad := by unfold deg2rad; nlinarith
  have hx2 : 20 * deg2rad < 0.349066 := by unfold deg2rad; nlinarith
  set x := 20 * deg2rad with hx
  have hxpos : 0 < x := by linarith
  have hxabs : |x| ≤ 1 := by
    rw [abs_of_pos hxpos]
    linarith
  have hcb := Real.cos_bound hxabs
  rw [abs_of_pos hxpos] at hcb
  have hpair := abs_le.mp hcb
  have hx2u : x ^ 2 < 0.1218471 := by nlinarith
  have hx2l : 0.1218462 < x ^ 2 := by nlinarith
  have hx4u : x ^ 4 < 0.0148476 := by
    nlinarith [sq_nonneg x, sq_nonneg (x ^ 2 - 0.1218471)]
  constructor
  · nlinarith [hpair.1]
  · nlinarith [hpair.2]

theorem sqrt2_bounds : 1.414213 < Real.sqrt 2 ∧ Real.sqrt 2 < 1.414214 := by
  have h2 : Real.sqrt 2 ^ 2 = 2 := Real.sq_sqrt (by norm_num)
  have hnn := Real.sqrt_nonneg 2
  constructor <;> nlinarith

set_option maxHeartbeats 2000000 in
/-- C4: `calc_beam_rotmatrix` returns the documented matrix with
`a = 1/(2 sin θ)`, `b = 1/(4 cos θ)`, `d = a/√2` and sign selector `c = -1`
exactly for `convex ∈ {0, -1}`; at 20° convex the key entries are close to
`1.46190`, `0.26604` and `1.03416`; for the concave encoding the first two
rows flip sign. -/
theorem claim_C4 :
    (∀ (theta : ℝ) (convex : ℤ) (degrees : Bool),
      calc_beam_rotmatrix theta convex degrees =
        (let θ : ℝ := if degrees then theta * deg2rad else theta
         let c : ℝ := if convex = 0 ∨ convex = -1 then -1 else 1
         let a : ℝ := 1 / (2 * Real.sin θ)
         let b : ℝ := 1 / (4 * Real.cos θ)
         let d : ℝ := a / Real.sqrt 2
         !![c * a, -(c * a), 0, 0; 0, 0, -(c * a), c * a;
            b, b, b, b; d, d, -d, -d])) ∧
    |calc_beam_rotmatrix 20 1 true 0 0 - 1.46190| < 0.01 ∧
    |calc_beam_rotmatrix 20 1 true 2 0 - 0.26604| < 0.01 ∧
    |calc_beam_rotmatrix 20 1 true 3 0 - 1.03416| < 0.01 ∧
    (∀ (theta : ℝ) (degrees : Bool) (i j : Fin 4),
      calc_beam_rotmatrix theta 0 degrees i j =
        (if (i : ℕ) < 2 then -1 else 1) *
          calc_beam_rotmatrix theta 1 degrees i j) ∧
    (∀ (theta : ℝ) (convex : ℤ) (degrees : Bool),
      (convex = 0 ∨ convex = -1 →
        calc_beam_rotmatrix theta convex degrees =
          calc_beam_rotmatrix theta 0 degrees) ∧
      (¬(convex = 0 ∨ convex = -1) →
        calc_beam_rotmatrix theta convex degrees =
          calc_beam_rotmatrix theta 1 degrees)) := by
  have hpos0 : ((0 : ℤ) = 0 ∨ (0 : ℤ) = -1) := Or.inl rfl
  have hneg1 : ¬((1 : ℤ) = 0 ∨ (1 : ℤ) = -1) := by decide
  have hs := sin20_bounds
  have hc := cos20_bounds
  have hq := sqrt2_bounds
  have h2s : 0 < 2 * Real.sin (20 * deg2rad) := by linarith [hs.1]
  have h4c : 0 < 4 * Real.cos (20 * deg2rad) := by linarith [hc.1]
  have hqpos : 0 < Real.sqrt 2 := by linarith [hq.1]
  have ha1 : (1.45190 : ℝ) < 1 / (2 * Real.sin (20 * deg2rad)) := by
    rw [lt_div_iff h2s]
    nlinarith [hs.2]
  have ha2 : 1 / (2 * Real.sin (20 * deg2rad)) < 1.47190 := by
    rw [div_lt_iff h2s]
    nlinarith [hs.1]
  refine ⟨fun theta convex degrees => rfl, ?_, ?_, ?_, ?_, ?_⟩
  · have hM : calc_beam_rotmatrix 20 1 true 0 0
        = 1 / (2 * Real.sin (20 * deg2rad)) := by
      norm_num [calc_beam_rotmatrix]
    rw [hM, abs_lt]
    constructor <;> linarith
  · have hM : calc_beam_rotmatrix 20 1 true 2 0
        = 1 / (4 * Real.cos (20 * deg2rad)) := by
      norm_num [calc_beam_rotmatrix]
    rw [hM, abs_lt]
    have hb1 : (0.26592 : ℝ) < 1 / (4 * Real.cos (20 * deg2rad)) := by
      rw [lt_div_iff h4c]
      nlinarith [hc.2]
    have hb2 : 1 / (4 * Real.cos (20 * deg2rad)) < 0.26645 := by
      rw [div_lt_iff h4c]
      nlinarith [hc.1]
    constructor <;> linarith
  · have hM : calc_beam_rotmatrix 20 1 true 3 0
        = (1 / (2 * Real.sin (20 * deg2rad))) / Real.sqrt 2 := by
      norm_num [calc_beam_rotmatrix]
    rw [hM, abs_lt]
    have hd1 : (1.02416 : ℝ)
        < (1 / (2 * Real.sin (20 * deg2rad))) / Real.sqrt 2 := by
      rw [lt_div_iff hqpos]
      nlinarith [hq.2]
    have hd2 : (1 / (2 * Real.sin (20 * deg2rad))) / Real.sqrt 2
        < 1.04416 := by
      rw [div_lt_iff hqpos]
      nlinarith [hq.1]
    constructor <;> linarith
  · intro theta degrees i j
    simp only [calc_beam_rotmatrix, if_pos hpos0, if_neg hneg1]
    fin_cases i <;> fin_cases j <;>
      (simp [Matrix.vecHead, Matrix.vecTail]; try ring)
  · intro theta convex degrees
    constructor
    · intro h
      simp only [calc_beam_rotmatrix, if_pos h]
      norm_num
    · intro h
      simp only [calc_beam_rotmatrix, if_neg h]
      norm_num

/-- C4 witness: the entry formula at 20° convex, and the concave sign
selector at the negative sentinel `-1`. -/
theorem claim_C4_witness :
    (calc_beam_rotmatrix 20 1 true =
      (let θ : ℝ := if true then (20 : ℝ) * deg2rad else 20
       let c : ℝ := if (1 : ℤ) = 0 ∨ (1 : ℤ) = -1 then -1 else 1
       let a : ℝ := 1 / (2 * Real.sin θ)
       let b : ℝ := 1 / (4 * Real.cos θ)
       let d : ℝ := a / Real.sqrt 2
       !![c * a, -(c * a), 0, 0; 0, 0, -(c * a), c * a;
          b, b, b, b; d, d, -d, -d])) ∧
    ((-1 : ℤ) = 0 ∨ (-1 : ℤ) = -1) ∧
    calc_beam_rotmatrix 20 (-1) true = calc_beam_rotmatrix 20 0 true :=
  ⟨claim_C4.1 20 1 true, by decide,
    (claim_C4.2.2.2.2.2 20 (-1) true).1 (by decide)⟩

theorem inst2earth_of_success {nd nt : ℕ} (a : Adcpo nd nt)
    (reverse fo force : Bool)
    (h : (inst2earth a reverse fo force).2 = none) :
    inst2earth a reverse fo force =
      (i2e_apply (declStep a reverse) reverse fo, none) := by
  unfold inst2earth at h ⊢
  split at h
  · exact absurd h (by simp)
  · split at h
    · exact absurd h (by simp)
    · split at h
      · exact absurd h (by simp)
      · rename_i h1 h2 h3
        rw [if_neg h1, if_neg h2, if_neg h3]

theorem declStep_flag_true {nd nt : ℕ} (a : Adcpo nd nt) (reverse : Bool)
    (hflag : a.props.declination_in_heading = true) :
    declStep a reverse = a := by
  unfold declStep
  rw [if_neg (fun hc => by rw [hflag] at hc; exact absurd hc.2.2 (by simp))]

theorem inst2earth_heading_pres {nd nt : ℕ} (a : Adcpo nd nt)
    (reverse fo force : Bool) (hds : declStep a reverse = a) :
    (inst2earth a reverse fo force).1.heading = a.heading := by
  unfold inst2earth
  split
  · rfl
  · split
    · rfl
    · split
      · show (declStep a reverse).heading = a.heading
        rw [hds]
      · show (i2e_apply (declStep a reverse) reverse fo).heading = a.heading
        rw [i2e_apply_heading, hds]

/-- C6 counterexample: a signature-model record with an unsupported
orientation flag and a pending declination: `inst2earth` raises, but the
heading series has already been mutated by the declination fold-in. -/
theorem claim_C6_cex :
    (inst2earth recSig false false false).2
      = some RotErr.unsupportedOrient ∧
    (inst2earth recSig false false false).1.heading 0
      ≠ recSig.heading 0 := by
  have h3 : pyLower (declStep recSig false).props.inst_model = "signature" ∧
      ∃ t, (declStep recSig false).orient_up t ≠ (4 : ℤ) := by
    rw [declStep_inst_model, declStep_orient_up]
    exact ⟨by decide, ⟨0, by decide⟩⟩
  have herr := inst2earth_err_sig recSig false false false (by decide)
    (by simp) h3
  rw [herr]
  refine ⟨rfl, ?_⟩
  show (declStep recSig false).heading 0 ≠ recSig.heading 0
  unfold declStep
  rw [if_pos ⟨rfl, rfl, rfl⟩]
  show recSig.heading 0 + (recSig.props.declination.getD 0)
    ≠ recSig.heading 0
  have h1 : recSig.heading 0 = 0 := rfl
  have h2 : recSig.props.declination.getD 0 = 10 := rfl
  rw [h1, h2]
  norm_num

/-- C6 (amended): for a signature-model record with a bad orientation flag,
`inst2earth` raises `unsupportedOrient` and leaves velocity, bottom track,
`coord_sys` and the fixed-orientation flag unchanged; however the
declination fold-in (heading mutation plus `declination_in_heading` flag)
happens before the check and persists past the raise. -/
theorem claim_C6_thm (nd nt : ℕ) (a : Adcpo nd nt)
    (hcs : a.props.coord_sys ∈ (["inst", "ship"] : List String))
    (hsig : pyLower a.props.inst_model = "signature")
    (hbad : ∃ t, a.orient_up t ≠ (4 : ℤ)) :
    (inst2earth a false false false).2 = some RotErr.unsupportedOrient ∧
    (inst2earth a false false false).1.vel = a.vel ∧
    (inst2earth a false false false).1.bt_vel = a.bt_vel ∧
    (inst2earth a false false false).1.props.coord_sys
      = a.props.coord_sys ∧
    (inst2earth a false false false).1.props.inst2earth_fixed
      = a.props.inst2earth_fixed ∧
    (inst2earth a false false false).1.heading
      = (if a.props.declination.isSome = true ∧
            a.props.declination_in_heading = false
         then fun t => a.heading t + a.props.declination.getD 0
         else a.heading) ∧
    (inst2earth a false false false).1.props.declination_in_heading
      = (if a.props.declination.isSome = true ∧
            a.props.declination_in_heading = false
         then true
         else a.props.declination_in_heading) := by
  have h3 : pyLower (declStep a false).props.inst_model = "signature" ∧
      ∃ t, (declStep a false).orient_up t ≠ (4 : ℤ) := by
    rw [declStep_inst_model, declStep_orient_up]
    exact ⟨hsig, hbad⟩
  have herr := inst2earth_err_sig a false false false
    (fun hc => hc.2.2 hcs) (by simp) h3
  rw [herr]
  refine ⟨rfl, declStep_vel a false, declStep_bt_vel a false,
    declStep_coord_sys a false, declStep_fixed a false, ?_, ?_⟩
  · show (declStep a false).heading = _
    unfold declStep
    split
    · rename_i hc
      rw [if_pos ⟨hc.2.1, hc.2.2⟩]
    · rename_i hc
      rw [if_neg (fun hk => hc ⟨rfl, hk.1, hk.2⟩)]
  · show (declStep a false).props.declination_in_heading = _
    unfold declStep
    split
    · rename_i hc
      rw [if_pos ⟨hc.2.1, hc.2.2⟩]
    · rename_i hc
      rw [if_neg (fun hk => hc ⟨rfl, hk.1, hk.2⟩)]

/-- C6 witness for the amended claim, at the record `recSig`. -/
theorem claim_C6_witness :
    recSig.props.coord_sys ∈ (["inst", "ship"] : List String) ∧
    pyLower recSig.props.inst_model = "signature" ∧
    (∃ t, recSig.orient_up t ≠ (4 : ℤ)) ∧
    (inst2earth recSig false false false).1.vel = recSig.vel := by
  have h1 : recSig.props.coord_sys ∈ (["inst", "ship"] : List String) := by
    decide
  have h2 : pyLower recSig.props.inst_model = "signature" := by decide
  have h3 : ∃ t, recSig.orient_up t ≠ (4 : ℤ) := ⟨0, by decide⟩
  exact ⟨h1, h2, h3, (claim_C6_thm 1 1 recSig h1 h2 h3).2.1⟩

/-- C7: the declination is folded into heading exactly once: a forward call
with a pending declination adds it and sets the flag; any call with the flag
already set leaves heading unchanged; reverse calls never modify heading. -/
theorem claim_C7 :
    (∀ (nd nt : ℕ) (a : Adcpo nd nt) (d : ℝ) (fo force : Bool),
      a.props.declination = some d →
      a.props.declination_in_heading = false →
      (inst2earth a false fo force).2 = none →
      (inst2earth a false fo force).1.heading
          = (fun t => a.heading t + d) ∧
        (inst2earth a false fo force).1.props.declination_in_heading
          = true ∧
        (inst2earth a false fo force).1.props.declination = some d) ∧
    (∀ (nd nt : ℕ) (a : Adcpo nd nt) (reverse fo force : Bool),
      a.props.declination_in_heading = true →
      (inst2earth a reverse fo force).1.heading = a.heading) ∧
    (∀ (nd nt : ℕ) (a : Adcpo nd nt) (fo force : Bool),
      (inst2earth a true fo force).1.heading = a.heading) := by
  refine ⟨?_, ?_, ?_⟩
  · intro nd nt a d fo force hd hflag hsucc
    have heq := inst2earth_of_success a false fo force hsucc
    rw [heq]
    have hcond : (false = false ∧ a.props.declination.isSome = true ∧
        a.props.declination_in_heading = false) :=
      ⟨rfl, by rw [hd]; rfl, hflag⟩
    refine ⟨?_, ?_, ?_⟩
    · show (declStep a false).heading = _
      unfold declStep
      rw [if_pos hcond]
      funext t
      show a.heading t + a.props.declination.getD 0 = a.heading t + d
      rw [hd]
      rfl
    · show (declStep a false).props.declination_in_heading = true
      unfold declStep
      rw [if_pos hcond]
    · show (declStep a false).props.declination = some d
      rw [declStep_declination]
      exact hd
  · intro nd nt a reverse fo force hflag
    exact inst2earth_heading_pres a reverse fo force
      (declStep_flag_true a reverse hflag)
  · intro nd nt a fo force
    exact inst2earth_heading_pres a true fo force (declStep_true a)

/-- C7 witness: the first forward call on `recDecl` adds the declination. -/
theorem claim_C7_witness :
    recDecl.props.declination = some 10 ∧
    recDecl.props.declination_in_heading = false ∧
    (inst2earth recDecl false false false).2 = none ∧
    (inst2earth recDecl false false false).1.heading
      = fun t => recDecl.heading t + 10 := by
  have hsucc : (inst2earth recDecl false false false).2 = none := by
    rw [inst2earth_ok recDecl false false false (by decide) (by simp)
      (by decide)]
  exact ⟨rfl, rfl, hsucc,
    (claim_C7.1 1 1 recDecl 10 false false rfl rfl hsucc).1⟩

/-- C8: a forward `inst2earth` records its `fixed_orientation` argument; a
reverse call removes the recorded flag, and behaves exactly as a reverse
call on a record with no recorded flag and the recorded value (defaulting
to the caller argument) passed instead — the caller argument is ignored
whenever a recorded value exists. -/
theorem claim_C8 :
    (∀ (nd nt : ℕ) (a : Adcpo nd nt) (fo force : Bool),
      (inst2earth a false fo force).2 = none →
      (inst2earth a false fo force).1.props.inst2earth_fixed = some fo) ∧
    (∀ (nd nt : ℕ) (a : Adcpo nd nt) (fo force : Bool),
      (inst2earth a true fo force).2 = none →
      (inst2earth a true fo force).1.props.inst2earth_fixed = none) ∧
    (∀ (nd nt : ℕ) (a : Adcpo nd nt) (fo force : Bool),
      (inst2earth a true fo force).2 =
        (inst2earth
          { a with props := { a.props with inst2earth_fixed := none } }
          true (a.props.inst2earth_fixed.getD fo) force).2 ∧
      (inst2earth a true fo force).1.vel =
        (inst2earth
          { a with props := { a.props with inst2earth_fixed := none } }
          true (a.props.inst2earth_fixed.getD fo) force).1.vel ∧
      (inst2earth a true fo force).1.bt_vel =
        (inst2earth
          { a with props := { a.props with inst2earth_fixed := none } }
          true (a.props.inst2earth_fixed.getD fo) force).1.bt_vel ∧
      (inst2earth a true fo force).1.heading =
        (inst2earth
          { a with props := { a.props with inst2earth_fixed := none } }
          true (a.props.inst2earth_fixed.getD fo) force).1.heading ∧
      (inst2earth a true fo force).1.props.coord_sys =
        (inst2earth
          { a with props := { a.props with inst2earth_fixed := none } }
          true (a.props.inst2earth_fixed.getD fo) force).1.props.coord_sys)
    := by
  refine ⟨?_, ?_, ?_⟩
  · intro nd nt a fo force hsucc
    rw [inst2earth_of_success a false fo force hsucc]
    show (if false = true then none else some fo) = some fo
    rfl
  · intro nd nt a fo force hsucc
    rw [inst2earth_of_success a true fo force hsucc]
    show (if true = true then none else some fo)
      = (none : Option Bool)
    rfl
  · intro nd nt a fo force
    set a2 : Adcpo nd nt :=
      { a with props := { a.props with inst2earth_fixed := none } } with ha2
    set b := a.props.inst2earth_fixed.getD fo with hb
    by_cases hpre : force = false ∧
        pyLower a.props.coord_sys ∉ (["earth", "enu"] : List String)
    · have e1 : inst2earth a true fo force = (a, some RotErr.needEarth) := by
        unfold inst2earth
        rw [if_neg (by simp), if_pos ⟨hpre.1, rfl, hpre.2⟩]
      have e2 : inst2earth a2 true b force = (a2, some RotErr.needEarth) := by
        unfold inst2earth
        rw [if_neg (by simp), if_pos ⟨hpre.1, rfl, hpre.2⟩]
      rw [e1, e2]
      exact ⟨rfl, rfl, rfl, rfl, rfl⟩
    · by_cases hsig : pyLower a.props.inst_model = "signature" ∧
          ∃ t, a.orient_up t ≠ (4 : ℤ)
      · have e1 : inst2earth a true fo force
            = (declStep a true, some RotErr.unsupportedOrient) :=
          inst2earth_err_sig a true fo force (by simp)
            (fun hc => hpre ⟨hc.1, hc.2.2⟩)
            (by rw [declStep_true]; exact hsig)
        have e2 : inst2earth a2 true b force
            = (declStep a2 true, some RotErr.unsupportedOrient) :=
          inst2earth_err_sig a2 true b force (by simp)
            (fun hc => hpre ⟨hc.1, hc.2.2⟩)
            (by rw [declStep_true]; exact hsig)
        rw [e1, e2, declStep_true, declStep_true]
        exact ⟨rfl, rfl, rfl, rfl, rfl⟩
      · have e1 : inst2earth a true fo force
            = (i2e_apply (declStep a true) true fo, none) :=
          inst2earth_ok a true fo force (by simp)
            (fun hc => hpre ⟨hc.1, hc.2.2⟩)
            (by rw [declStep_true]; exact hsig)
        have e2 : inst2earth a2 true b force
            = (i2e_apply (declStep a2 true) true b, none) :=
          inst2earth_ok a2 true b force (by simp)
            (fun hc => hpre ⟨hc.1, hc.2.2⟩)
            (by rw [declStep_true]; exact hsig)
        rw [e1, e2, declStep_true, declStep_true]
        have hrm : inst2earth_rotmat a = inst2earth_rotmat a2 :=
          inst2earth_rotmat_congr a a2 rfl rfl rfl rfl rfl Iff.rfl
        have heff1 : i2e_fixedEff a true fo = b := rfl
        have heff2 : i2e_fixedEff a2 true b = b := rfl
        have hmm : ∀ t, i2e_matrix a true (i2e_fixedEff a true fo) t
            = i2e_matrix a2 true (i2e_fixedEff a2 true b) t := by
          intro t
          rw [heff1, heff2]
          unfold i2e_matrix
          rw [hrm]
        refine ⟨rfl, ?_, ?_, rfl, rfl⟩
        · funext i k t
          rw [i2e_apply_vel, i2e_apply_vel, hmm t]
        · rw [i2e_apply_bt_vel, i2e_apply_bt_vel]
          have : (fun (bt : Fin 4 → Fin nt → ℝ) => fun (i : Fin 4)
              (t : Fin nt) => rot3 (i2e_matrix a true
                (i2e_fixedEff a true fo) t) (fun c => bt c t) i)
              = fun bt i t => rot3 (i2e_matrix a2 true
                (i2e_fixedEff a2 true b) t) (fun c => bt c t) i := by
            funext bt i t
            rw [hmm t]
          rw [this]

/-- C8 witness: a successful reverse call on `recEarth` removes the
recorded fixed-orientation flag. -/
theorem claim_C8_witness :
    (inst2earth recEarth true false false).2 = none ∧
    (inst2earth recEarth true false false).1.props.inst2earth_fixed
      = none := by
  have hsucc : (inst2earth recEarth true false false).2 = none := by
    rw [inst2earth_ok recEarth true false false (by simp) (by decide)
      (by decide)]
  exact ⟨hsucc, claim_C8.2.1 1 1 recEarth false false hsucc⟩

/-- C9: `inst2earth` rotates only the first three velocity channels — the
fourth (error-velocity) channel is returned unchanged — the bottom-track
array, when present, is rotated by the same per-time-step matrices (with no
depth-bin axis) and stays `none` when absent; calls that raise leave both
arrays untouched. -/
theorem claim_C9 :
    (∀ (nd nt : ℕ) (a : Adcpo nd nt) (reverse fo force : Bool),
      (inst2earth a reverse fo force).2 = none →
        (∀ (k : Fin nd) (t : Fin nt),
          (inst2earth a reverse fo force).1.vel 3 k t = a.vel 3 k t) ∧
        (∀ (i : Fin 4) (k : Fin nd) (t : Fin nt) (hi : (i : ℕ) < 3),
          (inst2earth a reverse fo force).1.vel i k t =
            (i2e_applied a reverse fo t).mulVec
              (fun j => a.vel (Fin.castLE (by norm_num) j) k t) ⟨i, hi⟩) ∧
        (a.bt_vel = none →
          (inst2earth a reverse fo force).1.bt_vel = none) ∧
        (∀ bt, a.bt_vel = some bt →
          (inst2earth a reverse fo force).1.bt_vel =
            some (fun i t => rot3 (i2e_applied a reverse fo t)
              (fun c => bt c t) i))) ∧
    (∀ (nd nt : ℕ) (a : Adcpo nd nt) (reverse fo force : Bool)
      (e : RotErr),
      (inst2earth a reverse fo force).2 = some e →
        (inst2earth a reverse fo force).1.vel = a.vel ∧
        (inst2earth a reverse fo force).1.bt_vel = a.bt_vel) := by
  constructor
  · intro nd nt a reverse fo force hsucc
    rw [inst2earth_of_success a reverse fo force hsucc]
    refine ⟨?_, ?_, ?_, ?_⟩
    · intro k t
      show (i2e_apply (declStep a reverse) reverse fo).vel 3 k t
        = a.vel 3 k t
      rw [i2e_apply_vel, rot3_last _ _ _ (by decide), declStep_vel]
    · intro i k t hi
      show (i2e_apply (declStep a reverse) reverse fo).vel i k t = _
      rw [i2e_apply_vel]
      show dite _ _ _ = _
      rw [dif_pos hi]
      congr 1
      funext j
      show (declStep a reverse).vel _ k t = _
      rw [declStep_vel]
    · intro hbt
      show ((declStep a reverse).bt_vel.map _) = none
      rw [declStep_bt_vel, hbt]
      rfl
    · intro bt hbt
      show ((declStep a reverse).bt_vel.map _) = _
      rw [declStep_bt_vel, hbt]
      rfl
  · intro nd nt a reverse fo force e herr
    unfold inst2earth at herr ⊢
    split at herr
    · rename_i h1
      rw [if_pos h1]
      exact ⟨rfl, rfl⟩
    · split at herr
      · rename_i h1 h2
        rw [if_neg h1, if_pos h2]
        exact ⟨rfl, rfl⟩
      · split at herr
        · rename_i h1 h2 h3
          rw [if_neg h1, if_neg h2, if_pos h3]
          exact ⟨declStep_vel a reverse, declStep_bt_vel a reverse⟩
        · exact absurd herr (by simp)

/-- C9 witness: a successful forward call on `recBt` (bottom track present)
rotates the bottom-track channels with the same matrices. -/
theorem claim_C9_witness :
    (inst2earth recBt false false false).2 = none ∧
    recBt.bt_vel = some (fun i _ => if i = 0 then 1 else 0) ∧
    (inst2earth recBt false false false).1.bt_vel =
      some (fun i t => rot3 (i2e_applied recBt false false t)
        (fun c => (if c = 0 then (1 : ℝ) else 0)) i) := by
  have hsucc : (inst2earth recBt false false false).2 = none := by
    rw [inst2earth_ok recBt false false false (by decide) (by simp)
      (by decide)]
  exact ⟨hsucc, rfl, (claim_C9.1 1 1 recBt false false false hsucc).2.2.2
    (fun i _ => if i = 0 then 1 else 0) rfl⟩

/-- C10: `inst2earth_heading` adds the declination to the heading whenever
the key is present, without consulting the `declination_in_heading` flag;
after a forward `inst2earth` with a pending declination `d` the returned
phase therefore contains `d` twice. -/
theorem claim_C10 (nd nt : ℕ) (a : Adcpo nd nt) (d : ℝ) (fo force : Bool)
    (hd : a.props.declination = some d)
    (hflag : a.props.declination_in_heading = false)
    (hsucc : (inst2earth a false fo force).2 = none) :
    ∀ t, inst2earth_heading (inst2earth a false fo force).1 t =
      Complex.exp (-Complex.I *
        (((a.heading t + a.props.heading_offset.getD 0 + d + d)
          * deg2rad : ℝ) : ℂ)) := by
  intro t
  rw [inst2earth_of_success a false fo force hsucc]
  show inst2earth_heading (i2e_apply (declStep a false) false fo) t = _
  unfold inst2earth_heading
  have hh : (i2e_apply (declStep a false) false fo).heading t
      = a.heading t + d := by
    rw [i2e_apply_heading]
    unfold declStep
    rw [if_pos ⟨rfl, by rw [hd]; rfl, hflag⟩]
    show a.heading t + a.props.declination.getD 0 = _
    rw [hd]
    rfl
  have hoff : (i2e_apply (declStep a false) false fo).props.heading_offset
      = a.props.heading_offset := by
    rw [i2e_apply_heading_offset, declStep_heading_offset]
  have hdec : (i2e_apply (declStep a false) false fo).props.declination
      = some d := by
    rw [i2e_apply_declination, declStep_declination]
    exact hd
  rw [hh, hoff, hdec]
  cases hcase : a.props.heading_offset with
  | none =>
    show Complex.exp (-Complex.I * (((a.heading t + d) * deg2rad
      + d * deg2rad : ℝ) : ℂ)) = _
    have harg : ((a.heading t + d) * deg2rad + d * deg2rad : ℝ)
        = ((a.heading t + (none : Option ℝ).getD 0 + d + d) * deg2rad
          : ℝ) := by
      show _ = (a.heading t + 0 + d + d) * deg2rad
      ring
    rw [harg]
  | some o =>
    show Complex.exp (-Complex.I * (((a.heading t + d) * deg2rad
      + o * deg2rad + d * deg2rad : ℝ) : ℂ)) = _
    have harg : ((a.heading t + d) * deg2rad + o * deg2rad
        + d * deg2rad : ℝ)
        = ((a.heading t + (some o).getD 0 + d + d) * deg2rad : ℝ) := by
      show _ = (a.heading t + o + d + d) * deg2rad
      ring
    rw [harg]

/-- C10 witness: at `recDecl` the phase after a forward call contains the
declination 10 twice. -/
theorem claim_C10_witness :
    recDecl.props.declination = some 10 ∧
    recDecl.props.declination_in_heading = false ∧
    (inst2earth recDecl false false false).2 = none ∧
    inst2earth_heading (inst2earth recDecl false false false).1 0 =
      Complex.exp (-Complex.I *
        (((recDecl.heading 0 + recDecl.props.heading_offset.getD 0
          + 10 + 10) * deg2rad : ℝ) : ℂ)) := by
  have hsucc : (inst2earth recDecl false false false).2 = none := by
    rw [inst2earth_ok recDecl false false false (by decide) (by simp)
      (by decide)]
  exact ⟨rfl, rfl, hsucc,
    claim_C10 1 1 recDecl 10 false false rfl rfl hsucc 0⟩

end Dolfyn
